import Mathlib

/-!
Verification of the AegisX core policy pipeline (Go sources under
`internal/policy` and `internal/firewall`) against its natural-language
specification.  The Go code is shallowly embedded: each Go function that a
claim touches is translated into an executable Lean definition; Go `int`
becomes `Int`, Go slices become `List`, Go maps used as string sets become
`List String` membership, and external effects (the `net` parsing helpers,
the yaml decoder, the filesystem listing, the `nft` subprocess) become
explicit parameters.
-/

namespace AegisX

/-! ## Data model (`internal/policy/types.go`) -/

/-- `Metadata` from types.go.  Labels/annotation maps are association lists. -/
structure Metadata where
  name : String
  namespace_ : String
  labels : List (String × String)
  annots : List (String × String)
  deriving Repr, DecidableEq, Inhabited

/-- `PortRange` from types.go; Go fields `Start`/`End` (`End` is a Lean keyword,
rendered `stop`). -/
structure PortRange where
  start : Int
  stop : Int
  deriving Repr, DecidableEq, Inhabited

/-- `RateLimit` from types.go. -/
structure RateLimit where
  rate : String
  burst : Int
  deriving Repr, DecidableEq, Inhabited

/-- `TrafficSelector` from types.go. -/
structure TrafficSelector where
  zones : List String
  addresses : List String
  ports : List Int
  portRanges : List PortRange
  ipsets : List String
  deriving Repr, DecidableEq, Inhabited

/-- `FirewallRule` from types.go. -/
structure FirewallRule where
  name : String
  priority : Int
  action : String
  protocol : String
  source : TrafficSelector
  dest : TrafficSelector
  state : List String
  rateLimit : Option RateLimit
  log : Bool
  comment : String
  deriving Repr, DecidableEq, Inhabited

/-- `FirewallPolicySpec` from types.go. -/
structure FirewallPolicySpec where
  defaultAction : String
  rules : List FirewallRule
  deriving Repr, DecidableEq, Inhabited

/-- `LBServer` from types.go. -/
structure LBServer where
  name : String
  address : String
  weight : Int
  maxConn : Int
  backup : Bool
  deriving Repr, DecidableEq, Inhabited

/-- `LBHealthCheck` from types.go. -/
structure LBHealthCheck where
  interval : String
  timeout : String
  rise : Int
  fall : Int
  path : String
  deriving Repr, DecidableEq, Inhabited

/-- `LBFrontend` from types.go. -/
structure LBFrontend where
  bind : String
  mode : String
  maxConn : Int
  deriving Repr, DecidableEq, Inhabited

/-- `LBBackend` from types.go. -/
structure LBBackend where
  algorithm : String
  servers : List LBServer
  healthCheck : Option LBHealthCheck
  timeout : String
  deriving Repr, DecidableEq, Inhabited

/-- `LBTLSConfig` from types.go. -/
structure LBTLSConfig where
  cert : String
  key : String
  minVersion : String
  deriving Repr, DecidableEq, Inhabited

/-- `LoadBalancerPolicySpec` from types.go. -/
structure LoadBalancerPolicySpec where
  frontend : LBFrontend
  backend : LBBackend
  tls : Option LBTLSConfig
  deriving Repr, DecidableEq, Inhabited

/-- `VPNPeer` from types.go. -/
structure VPNPeer where
  name : String
  publicKey : String
  allowedIPs : List String
  endpoint : String
  presharedKey : String
  keepAlive : Int
  deriving Repr, DecidableEq, Inhabited

/-- `VPNPolicySpec` from types.go. -/
structure VPNPolicySpec where
  iface : String
  listenPort : Int
  address : String
  dns : List String
  peers : List VPNPeer
  deriving Repr, DecidableEq, Inhabited

/-- `NATRule` from types.go. -/
structure NATRule where
  name : String
  type_ : String
  source : String
  dest : String
  toSource : String
  toDest : String
  outIface : String
  deriving Repr, DecidableEq, Inhabited

/-- `NATPolicySpec` from types.go. -/
structure NATPolicySpec where
  rules : List NATRule
  deriving Repr, DecidableEq, Inhabited

/-- `IDSRule` from types.go. -/
structure IDSRule where
  id : String
  message : String
  rule : String
  enabled : Bool
  deriving Repr, DecidableEq, Inhabited

/-- `IDSThreshold` from types.go. -/
structure IDSThreshold where
  gid : Int
  sid : Int
  type_ : String
  track : String
  count : Int
  seconds : Int
  deriving Repr, DecidableEq, Inhabited

/-- `IDSPolicySpec` from types.go. -/
structure IDSPolicySpec where
  mode : String
  ruleSets : List String
  customRules : List IDSRule
  thresholds : List IDSThreshold
  deriving Repr, DecidableEq, Inhabited

/-- `Manifest` from types.go.  Exactly one of the spec pointers is populated
by the parser, depending on `kind`; `none` models a nil Go pointer. -/
structure Manifest where
  apiVersion : String
  kind : String
  metadata : Metadata
  firewallSpec : Option FirewallPolicySpec
  loadBalancerSpec : Option LoadBalancerPolicySpec
  vpnSpec : Option VPNPolicySpec
  natSpec : Option NATPolicySpec
  idsSpec : Option IDSPolicySpec
  deriving Repr, DecidableEq, Inhabited

/-- `APIVersion` constant from types.go. -/
def APIVersion : String := "aegisx.io/v1"

/-- `KindFirewallPolicy` constant from types.go. -/
def KindFirewallPolicy : String := "FirewallPolicy"

/-- `KindLoadBalancerPolicy` constant from types.go. -/
def KindLoadBalancerPolicy : String := "LoadBalancerPolicy"

/-- `KindVPNPolicy` constant from types.go. -/
def KindVPNPolicy : String := "VPNPolicy"

/-- `KindNATPolicy` constant from types.go. -/
def KindNATPolicy : String := "NATPolicy"

/-- `KindIDSPolicy` constant from types.go. -/
def KindIDSPolicy : String := "IDSPolicy"

/-- `CompiledFirewallRule` from types.go. -/
structure CompiledFirewallRule where
  priority : Int
  chain : String
  action : String
  protocol : String
  srcAddrs : List String
  dstAddrs : List String
  srcPorts : List String
  dstPorts : List String
  states : List String
  rateLimit : String
  log : Bool
  comment : String
  deriving Repr, DecidableEq, Inhabited

/-- `CompiledNATRule` from types.go. -/
structure CompiledNATRule where
  type_ : String
  srcAddr : String
  dstAddr : String
  toAddr : String
  outIface : String
  deriving Repr, DecidableEq, Inhabited

/-- `CompiledLoadBalancer` from types.go. -/
structure CompiledLoadBalancer where
  name : String
  frontend : LBFrontend
  backend : LBBackend
  tls : Option LBTLSConfig
  deriving Repr, DecidableEq, Inhabited

/-- `CompiledVPNConfig` from types.go. -/
structure CompiledVPNConfig where
  iface : String
  listenPort : Int
  address : String
  privateKey : String
  peers : List VPNPeer
  deriving Repr, DecidableEq, Inhabited

/-- `CompiledIDSRule` from types.go. -/
structure CompiledIDSRule where
  raw : String
  enabled : Bool
  deriving Repr, DecidableEq, Inhabited

/-- `IR` from types.go.  `createdAt` (Go `time.Time`) is modelled as an
integer timestamp; it never influences compilation or translation. -/
structure IR where
  id : String
  version : Int
  createdAt : Int
  firewallRules : List CompiledFirewallRule
  natRules : List CompiledNATRule
  loadBalancers : List CompiledLoadBalancer
  vpnConfigs : List CompiledVPNConfig
  idsRules : List CompiledIDSRule
  deriving Repr, DecidableEq, Inhabited

/-! ## External `net` helpers

`net.ParseCIDR`, `net.ParseIP` and `net.SplitHostPort` are Go standard
library address parsers.  The validator only ever branches on whether they
succeed, so they are embedded as an oracle of boolean predicates. -/

/-- Success predicates of the Go `net` parsing functions used by the
validator. -/
structure NetOracle where
  parseCIDROk : String → Bool
  parseIPOk : String → Bool
  splitHostPortOk : String → Bool

/-! ## Validator (`internal/policy/validator.go`) -/

/-- `ValidationError` from validator.go: the aggregated error list. -/
structure ValidationError where
  errors : List String
  deriving Repr, DecidableEq, Inhabited

/-- `ValidationError.Error()` from validator.go. -/
def veMessage (e : ValidationError) : String :=
  "validation errors:\n  - " ++ String.intercalate ("\n  - ") e.errors

/-- Go `%q` formatting of the plain (escape-free) strings that appear in
manifests: the string wrapped in double quotes. -/
def quoteGo (s : String) : String := "\"" ++ s ++ "\""

/-- The `validActions` set in `validateFirewall` (a Go `map[string]bool`). -/
def validActions : List String := ["ALLOW", "DROP", "REJECT", "LOG"]

/-- The `validProtocols` set in `validateFirewall`. -/
def validProtocols : List String := ["tcp", "udp", "icmp", "any", "ANY", ""]

/-- The per-rule body of the loop in `Validator.validateFirewall`
(validator.go lines 79-112); `i` is the loop index. -/
def fwRuleErrs (o : NetOracle) (ctx : String) : Nat → List FirewallRule → List String
  | _, [] => []
  | i, r :: rs =>
    let rCtx := ctx ++ " rule[" ++ toString i ++ "] " ++ quoteGo r.name
    (if r.name = "" then [rCtx ++ ": name is required"] else [])
    ++ (if ¬ validActions.contains r.action then
          [rCtx ++ ": invalid action " ++ quoteGo r.action] else [])
    ++ (if ¬ validProtocols.contains r.protocol then
          [rCtx ++ ": invalid protocol " ++ quoteGo r.protocol] else [])
    ++ ((r.source.addresses ++ r.dest.addresses).filterMap (fun addr =>
          if ¬ o.parseCIDROk addr ∧ ¬ o.parseIPOk addr then
            some (rCtx ++ ": invalid address " ++ quoteGo addr) else none))
    ++ ((r.source.ports ++ r.dest.ports).filterMap (fun p =>
          if p < 1 ∨ p > 65535 then
            some (rCtx ++ ": port " ++ toString p ++ " out of range") else none))
    ++ ((r.source.portRanges ++ r.dest.portRanges).filterMap (fun pr =>
          if pr.start ≥ pr.stop then
            some (rCtx ++ ": portRange start >= end (" ++ toString pr.start
                  ++ "-" ++ toString pr.stop ++ ")") else none))
    ++ fwRuleErrs o ctx (i + 1) rs

/-- `Validator.validateFirewall` from validator.go. -/
def validateFirewall (o : NetOracle) (ctx : String) :
    Option FirewallPolicySpec → List String
  | none => [ctx ++ ": spec is required for FirewallPolicy"]
  | some spec =>
    (if spec.defaultAction ≠ "" ∧ ¬ validActions.contains spec.defaultAction then
      [ctx ++ ": invalid defaultAction " ++ quoteGo spec.defaultAction] else [])
    ++ fwRuleErrs o ctx 0 spec.rules

/-- The `validAlgorithms` set in `validateLB`. -/
def validAlgorithms : List String := ["roundrobin", "leastconn", "source", "random"]

/-- The per-server body of the loop in `Validator.validateLB`. -/
def lbServerErrs (o : NetOracle) (ctx : String) : Nat → List LBServer → List String
  | _, [] => []
  | i, s :: ss =>
    (if s.address = "" then
      [ctx ++ " server[" ++ toString i ++ "]: address is required"] else [])
    ++ (if ¬ o.splitHostPortOk s.address then
      [ctx ++ " server[" ++ toString i ++ "]: invalid address " ++ quoteGo s.address]
      else [])
    ++ lbServerErrs o ctx (i + 1) ss

/-- `Validator.validateLB` from validator.go. -/
def validateLB (o : NetOracle) (ctx : String) :
    Option LoadBalancerPolicySpec → List String
  | none => [ctx ++ ": spec is required for LoadBalancerPolicy"]
  | some spec =>
    (if spec.frontend.bind = "" then [ctx ++ ": frontend.bind is required"] else [])
    ++ (if spec.frontend.mode = "" then
        [ctx ++ ": frontend.mode is required (tcp|http)"] else [])
    ++ (if spec.backend.algorithm ≠ "" ∧
          ¬ validAlgorithms.contains spec.backend.algorithm then
        [ctx ++ ": unknown algorithm " ++ quoteGo spec.backend.algorithm] else [])
    ++ (if spec.backend.servers.isEmpty then
        [ctx ++ ": backend must have at least one server"] else [])
    ++ lbServerErrs o ctx 0 spec.backend.servers

/-- The per-peer body of the loop in `Validator.validateVPN`. -/
def vpnPeerErrs (o : NetOracle) (ctx : String) : Nat → List VPNPeer → List String
  | _, [] => []
  | i, peer :: ps =>
    (if peer.publicKey = "" then
      [ctx ++ " peer[" ++ toString i ++ "]: publicKey is required"] else [])
    ++ (peer.allowedIPs.filterMap (fun aip =>
        if ¬ o.parseCIDROk aip then
          some (ctx ++ " peer[" ++ toString i ++ "]: invalid allowedIP " ++ quoteGo aip)
        else none))
    ++ vpnPeerErrs o ctx (i + 1) ps

/-- `Validator.validateVPN` from validator.go. -/
def validateVPN (o : NetOracle) (ctx : String) :
    Option VPNPolicySpec → List String
  | none => [ctx ++ ": spec is required for VPNPolicy"]
  | some spec =>
    (if spec.iface = "" then [ctx ++ ": interface is required"] else [])
    ++ (if spec.listenPort < 1 ∨ spec.listenPort > 65535 then
        [ctx ++ ": invalid listenPort " ++ toString spec.listenPort] else [])
    ++ (if ¬ o.parseCIDROk spec.address then
        [ctx ++ ": invalid address CIDR " ++ quoteGo spec.address] else [])
    ++ vpnPeerErrs o ctx 0 spec.peers

/-- The `validTypes` set in `validateNAT`. -/
def validNATTypes : List String := ["SNAT", "DNAT", "MASQUERADE"]

/-- The per-rule body of the loop in `Validator.validateNAT`. -/
def natRuleErrs (ctx : String) : Nat → List NATRule → List String
  | _, [] => []
  | i, r :: rs =>
    (if ¬ validNATTypes.contains r.type_ then
      [ctx ++ " rule[" ++ toString i ++ "]: invalid type " ++ quoteGo r.type_] else [])
    ++ natRuleErrs ctx (i + 1) rs

/-- `Validator.validateNAT` from validator.go. -/
def validateNAT (ctx : String) : Option NATPolicySpec → List String
  | none => [ctx ++ ": spec is required for NATPolicy"]
  | some spec => natRuleErrs ctx 0 spec.rules

/-- The context prefix `"[%s/%s]"` built at the top of `Validator.Validate`. -/
def mkCtx (md : Metadata) : String :=
  "[" ++ md.namespace_ ++ "/" ++ md.name ++ "]"

/-- The `switch m.Kind` of `Validator.Validate` (validator.go lines
45-58). -/
def validateKindErrs (o : NetOracle) (ctx : String) (m : Manifest) : List String :=
  if m.kind = KindFirewallPolicy then validateFirewall o ctx m.firewallSpec
  else if m.kind = KindLoadBalancerPolicy then validateLB o ctx m.loadBalancerSpec
  else if m.kind = KindVPNPolicy then validateVPN o ctx m.vpnSpec
  else if m.kind = KindNATPolicy then validateNAT ctx m.natSpec
  else if m.kind = KindIDSPolicy then []
  else [ctx ++ ": unknown kind " ++ quoteGo m.kind]

/-- The `errs` list accumulated by `Validator.Validate` (validator.go
lines 37-58): the name-required check followed by the kind switch. -/
def validateErrs (o : NetOracle) (m : Manifest) : List String :=
  let ctx := mkCtx m.metadata
  (if m.metadata.name = "" then [ctx ++ ": metadata.name is required"] else [])
  ++ validateKindErrs o ctx m

/-- `Validator.Validate` from validator.go: `none` models a nil error. -/
def Validate (o : NetOracle) (m : Manifest) : Option ValidationError :=
  let errs := validateErrs o m
  if errs.isEmpty then none else some ⟨errs⟩

/-- The error-list accumulation loop of `Validator.ValidateAll`. -/
def validateAllErrs (o : NetOracle) : List Manifest → List String
  | [] => []
  | m :: ms =>
    (match Validate o m with
      | some ve => ve.errors
      | none => []) ++ validateAllErrs o ms

/-- `Validator.ValidateAll` from validator.go. -/
def ValidateAll (o : NetOracle) (ms : List Manifest) : Option ValidationError :=
  let errs := validateAllErrs o ms
  if errs.isEmpty then none else some ⟨errs⟩

/-! ## Compiler (`internal/policy/engine.go`) -/

/-- `normalizeAction` from engine.go. -/
def normalizeAction (a : String) : String :=
  if a = "ALLOW" ∨ a = "allow" ∨ a = "ACCEPT" ∨ a = "accept" then "accept"
  else if a = "DROP" ∨ a = "drop" then "drop"
  else if a = "REJECT" ∨ a = "reject" then "reject"
  else if a = "LOG" ∨ a = "log" then "log"
  else "drop"

/-- `normalizeProtocol` from engine.go. -/
def normalizeProtocol (p : String) : String :=
  if p = "any" ∨ p = "ANY" ∨ p = "" then "" else p

/-- `compilePorts` from engine.go: integer ports as `"N"` (strconv.Itoa),
then ranges as `"A-B"` (`fmt.Sprintf("%d-%d", ...)`). -/
def compilePorts (ports : List Int) (ranges : List PortRange) : List String :=
  ports.map (fun p => toString p)
  ++ ranges.map (fun r => toString r.start ++ "-" ++ toString r.stop)

/-- `hasZone` from engine.go. -/
def hasZone (zones : List String) (target : String) : Bool :=
  zones.contains target

/-- The body of the per-rule loop in `Engine.compileFirewall` (engine.go
lines 86-123); `i` is the loop index. -/
def compileRule (md : Metadata) (i : Nat) (r : FirewallRule) : CompiledFirewallRule :=
  { priority := if r.priority = 0 then ((i : Int) + 1) * 100 else r.priority
    action := normalizeAction r.action
    protocol := normalizeProtocol r.protocol
    states := r.state
    log := r.log
    comment := md.namespace_ ++ "/" ++ md.name ++ "/" ++ r.name
    srcAddrs := r.source.addresses
    dstAddrs := r.dest.addresses
    dstPorts := compilePorts r.dest.ports r.dest.portRanges
    srcPorts := compilePorts r.source.ports r.source.portRanges
    chain :=
      if hasZone r.source.zones "localhost" ∨ hasZone r.dest.zones "localhost" then
        if hasZone r.dest.zones "localhost" then "input" else "output"
      else "forward"
    rateLimit :=
      match r.rateLimit with
      | some rl => rl.rate
      | none => "" }

/-- The rule loop of `Engine.compileFirewall`, carrying the loop index. -/
def compileRules (md : Metadata) : Nat → List FirewallRule → List CompiledFirewallRule
  | _, [] => []
  | i, r :: rs => compileRule md i r :: compileRules md (i + 1) rs

/-- `Engine.compileFirewall` from engine.go.  A nil `FirewallSpec` is
rejected by validation before `Compile` reaches this point; the `getD`
default mirrors that the dereference is unreachable for nil. -/
def compileFirewall (m : Manifest) : List CompiledFirewallRule :=
  let spec := m.firewallSpec.getD ⟨"", []⟩
  compileRules m.metadata 0 spec.rules
  ++ (if spec.defaultAction ≠ "" then
      [{ priority := 99999
         chain := "forward"
         action := normalizeAction spec.defaultAction
         protocol := ""
         srcAddrs := []
         dstAddrs := []
         srcPorts := []
         dstPorts := []
         states := []
         rateLimit := ""
         log := false
         comment := m.metadata.namespace_ ++ "/" ++ m.metadata.name ++ "/default" }]
      else [])

/-- `Engine.compileNAT` from engine.go. -/
def compileNAT (m : Manifest) : List CompiledNATRule :=
  let spec := m.natSpec.getD ⟨[]⟩
  spec.rules.map (fun r =>
    { type_ := r.type_
      srcAddr := r.source
      dstAddr := r.dest
      toAddr := r.toDest
      outIface := r.outIface })

/-- `Engine.compileLB` from engine.go. -/
def compileLB (m : Manifest) : CompiledLoadBalancer :=
  let spec := m.loadBalancerSpec.getD ⟨default, default, none⟩
  { name := m.metadata.name
    frontend := spec.frontend
    backend := spec.backend
    tls := spec.tls }

/-- `Engine.compileVPN` from engine.go (`PrivateKey` is left at its zero
value by the compiler). -/
def compileVPN (m : Manifest) : CompiledVPNConfig :=
  let spec := m.vpnSpec.getD ⟨"", 0, "", [], []⟩
  { iface := spec.iface
    listenPort := spec.listenPort
    address := spec.address
    privateKey := ""
    peers := spec.peers }

/-- `Engine.compileIDS` from engine.go. -/
def compileIDS (m : Manifest) : List CompiledIDSRule :=
  let spec := m.idsSpec.getD ⟨"", [], [], []⟩
  spec.customRules.map (fun r => { raw := r.rule, enabled := r.enabled })

/-- The kind switch in the manifest loop of `Engine.Compile` (engine.go
lines 33-70), appending each manifest's compiled artefacts to the IR. -/
def addManifest (ir : IR) (m : Manifest) : IR :=
  if m.kind = KindFirewallPolicy then
    { ir with firewallRules := ir.firewallRules ++ compileFirewall m }
  else if m.kind = KindNATPolicy then
    { ir with natRules := ir.natRules ++ compileNAT m }
  else if m.kind = KindLoadBalancerPolicy then
    { ir with loadBalancers := ir.loadBalancers ++ [compileLB m] }
  else if m.kind = KindVPNPolicy then
    { ir with vpnConfigs := ir.vpnConfigs ++ [compileVPN m] }
  else if m.kind = KindIDSPolicy then
    { ir with idsRules := ir.idsRules ++ compileIDS m }
  else ir

/-! ## Go `sort.Slice`

`Engine.Compile` sorts the compiled firewall rules with Go's `sort.Slice`,
which (since Go 1.19) runs the pattern-defeating quicksort of the standard
library `sort` package (`zsortfunc.go`) and is documented as *not* stable.
The following definitions embed that algorithm; loops are expressed with an
explicit fuel argument that is always sufficient for the loop bounds. -/

section GoSort

variable {α : Type} [Inhabited α]

/-- Go `sort.Slice` hands the algorithm a reflected `lessSwap` pair and
never touches the slice directly, so the slice is embedded as an index
function: `data.Swap(i, j)` becomes a double point-update and
`data.Less(i, j)` becomes `less (f i) (f j)`. -/
def fnSwap (f : Nat → α) (i j : Nat) : Nat → α :=
  fun k => if k = i then f j else if k = j then f i else f k

/-- Inner shifting loop of Go `insertionSort_func`; the second argument is
the current index `j`. -/
def goInsInner (less : α → α → Bool) (a : Nat) : Nat → (Nat → α) → (Nat → α)
  | 0, f => f
  | j + 1, f =>
    if a < j + 1 ∧ less (f (j + 1)) (f j) then
      goInsInner less a j (fnSwap f (j + 1) j)
    else f

/-- Outer loop of Go `insertionSort_func` (`i` ranges over `[a+1, b)`). -/
def goInsLoop (less : α → α → Bool) (a b : Nat) : Nat → Nat → (Nat → α) → (Nat → α)
  | 0, _, f => f
  | fuel + 1, i, f =>
    if i < b then goInsLoop less a b fuel (i + 1) (goInsInner less a i f)
    else f

/-- Go `insertionSort_func`. -/
def insertionSortGo (less : α → α → Bool) (a b : Nat) (f : Nat → α) : Nat → α :=
  goInsLoop less a b (b - a) (a + 1) f

/-- Go `siftDown_func`; the last explicit argument is `root`. -/
def siftDownGo (less : α → α → Bool) (first hi : Nat) : Nat → Nat → (Nat → α) → (Nat → α)
  | 0, _, f => f
  | fuel + 1, root, f =>
    let child := 2 * root + 1
    if child ≥ hi then f
    else
      let child :=
        if child + 1 < hi ∧ less (f (first + child)) (f (first + child + 1))
        then child + 1 else child
      if ¬ less (f (first + root)) (f (first + child)) then f
      else siftDownGo less first hi fuel child (fnSwap f (first + root) (first + child))

/-- Heap-construction loop of Go `heapSort_func` (`i` from `(hi-1)/2` down to 0). -/
def heapBuildGo (less : α → α → Bool) (first hi : Nat) : Nat → (Nat → α) → (Nat → α)
  | 0, f => f
  | i + 1, f => heapBuildGo less first hi i (siftDownGo less first hi hi i f)

/-- Extraction loop of Go `heapSort_func` (`i` from `hi-1` down to 0). -/
def heapExtractGo (less : α → α → Bool) (first : Nat) : Nat → (Nat → α) → (Nat → α)
  | 0, f => f
  | i + 1, f =>
    heapExtractGo less first i (siftDownGo less first i i 0 (fnSwap f first (first + i)))

/-- Go `heapSort_func`. -/
def heapSortGo (less : α → α → Bool) (a b : Nat) (f : Nat → α) : Nat → α :=
  let hi := b - a
  heapExtractGo less a hi (heapBuildGo less a hi ((hi - 1) / 2 + 1) f)

/-- Halving loop of Go `bits.Len` (structural on a fuel bound that
dominates the bit count). -/
def bitsLenAux : Nat → Nat → Nat
  | 0, _ => 0
  | fuel + 1, n => if n = 0 then 0 else bitsLenAux fuel (n / 2) + 1

/-- Go `bits.Len` on a `uint`: the number of bits of `n`. -/
def bitsLenGo (n : Nat) : Nat := bitsLenAux (n + 1) n

/-- Go `nextPowerOfTwo` from the sort package. -/
def nextPowerOfTwoGo (length : Nat) : Nat := 2 ^ bitsLenGo length

/-- One step of the Go sort package's `xorshift` generator on `uint64`. -/
def xorshiftNext (s : Nat) : Nat :=
  let s := (s ^^^ (s <<< 13)) % 2 ^ 64
  let s := (s ^^^ (s >>> 7)) % 2 ^ 64
  (s ^^^ (s <<< 17)) % 2 ^ 64

/-- Go `breakPatterns_func` (seeded with the slice length). -/
def breakPatternsGo (a b : Nat) (f : Nat → α) : Nat → α :=
  let length := b - a
  if length ≥ 8 then
    let idx := a + (length / 4) * 2 - 1
    let modulus := nextPowerOfTwoGo length
    let step := fun (st : Nat × (Nat → α)) (i : Nat) =>
      let rand := xorshiftNext st.1
      let other := rand % modulus
      let other := if other ≥ length then other - length else other
      (rand, fnSwap st.2 (idx - 1 + i) (a + other))
    (([0, 1, 2] : List Nat).foldl step (length, f)).2
  else f

/-- The sortedness hints of the Go sort package (`increasingHint`,
`decreasingHint`, `unknownHint`). -/
inductive SortHint
  | inc
  | dec
  | unk
  deriving DecidableEq, Repr

/-- Go `order2_func`: orders two indices by the data they hold, counting
inversions in `swaps`. -/
def order2Go (less : α → α → Bool) (f : Nat → α) (x y swaps : Nat) :
    Nat × Nat × Nat :=
  if less (f y) (f x) then (y, x, swaps + 1) else (x, y, swaps)

/-- Go `median_func`: index of the median of three positions. -/
def medianGo (less : α → α → Bool) (f : Nat → α) (x y z swaps : Nat) : Nat × Nat :=
  let (x1, y1, s1) := order2Go less f x y swaps
  let (y2, _, s2) := order2Go less f y1 z s1
  let (_, y3, s3) := order2Go less f x1 y2 s2
  (y3, s3)

/-- Go `medianAdjacent_func`. -/
def medianAdjacentGo (less : α → α → Bool) (f : Nat → α) (x swaps : Nat) :
    Nat × Nat :=
  medianGo less f (x - 1) x (x + 1) swaps

/-- The `switch swaps` at the end of Go `choosePivot_func`
(`maxSwaps = 12`). -/
def hintOf (swaps : Nat) : SortHint :=
  if swaps = 0 then .inc else if swaps = 12 then .dec else .unk

/-- Go `choosePivot_func` (median of three for `8 ≤ l < 50`, ninther for
`l ≥ 50`). -/
def choosePivotGo (less : α → α → Bool) (f : Nat → α) (a b : Nat) :
    Nat × SortHint :=
  let l := b - a
  let i := a + (l / 4) * 1
  let j := a + (l / 4) * 2
  let k := a + (l / 4) * 3
  if l ≥ 8 then
    if l ≥ 50 then
      let (i2, s1) := medianAdjacentGo less f i 0
      let (j2, s2) := medianAdjacentGo less f j s1
      let (k2, s3) := medianAdjacentGo less f k s2
      let (m, s4) := medianGo less f i2 j2 k2 s3
      (m, hintOf s4)
    else
      let (m, s) := medianGo less f i j k 0
      (m, hintOf s)
  else (j, SortHint.inc)

/-- Go `reverseRange_func`; arguments after the fuel are `i` and `j`. -/
def reverseRangeGo : Nat → Nat → Nat → (Nat → α) → (Nat → α)
  | 0, _, _, f => f
  | fuel + 1, i, j, f =>
    if i < j then reverseRangeGo fuel (i + 1) (j - 1) (fnSwap f i j) else f

/-- The index-advancing scan of Go `partialInsertionSort_func`
(`for i < b && !data.Less(i, i-1)`). -/
def piAdvance (less : α → α → Bool) (b : Nat) (f : Nat → α) : Nat → Nat → Nat
  | 0, i => i
  | fuel + 1, i =>
    if i < b ∧ ¬ less (f i) (f (i - 1)) then
      piAdvance less b f fuel (i + 1)
    else i

/-- The leftward shifting loop of Go `partialInsertionSort_func`. -/
def piShiftLeft (less : α → α → Bool) : Nat → Nat → (Nat → α) → (Nat → α)
  | 0, _, f => f
  | fuel + 1, j, f =>
    if 1 ≤ j ∧ less (f j) (f (j - 1)) then
      piShiftLeft less fuel (j - 1) (fnSwap f j (j - 1))
    else f

/-- The rightward shifting loop of Go `partialInsertionSort_func`. -/
def piShiftRight (less : α → α → Bool) (b : Nat) : Nat → Nat → (Nat → α) → (Nat → α)
  | 0, _, f => f
  | fuel + 1, j, f =>
    if j < b ∧ less (f j) (f (j - 1)) then
      piShiftRight less b fuel (j + 1) (fnSwap f j (j - 1))
    else f

/-- The step loop of Go `partialInsertionSort_func` (`maxSteps = 5`,
`shortestShifting = 50`). -/
def piSteps (less : α → α → Bool) (a b : Nat) : Nat → Nat → (Nat → α) → Bool × (Nat → α)
  | 0, _, f => (false, f)
  | steps + 1, i, f =>
    let i := piAdvance less b f (b + 1) i
    if i = b then (true, f)
    else if b - a < 50 then (false, f)
    else
      let f := fnSwap f i (i - 1)
      let f := if i - a ≥ 2 then piShiftLeft less i (i - 1) f else f
      let f := if b - i ≥ 2 then piShiftRight less b b (i + 1) f else f
      piSteps less a b steps i f

/-- Go `partialInsertionSort_func`. -/
def partialInsertionSortGo (less : α → α → Bool) (a b : Nat) (f : Nat → α) :
    Bool × (Nat → α) :=
  piSteps less a b 5 (a + 1) f

/-- The `i`-advancing scan of Go `partition_func`
(`for i <= j && data.Less(i, a)`). -/
def scanIGo (less : α → α → Bool) (f : Nat → α) (a j : Nat) : Nat → Nat → Nat
  | 0, i => i
  | fuel + 1, i =>
    if i ≤ j ∧ less (f i) (f a) then scanIGo less f a j fuel (i + 1)
    else i

/-- The `j`-descending scan of Go `partition_func`
(`for i <= j && !data.Less(j, a)`). -/
def scanJGo (less : α → α → Bool) (f : Nat → α) (a i : Nat) : Nat → Nat → Nat
  | 0, j => j
  | fuel + 1, j =>
    if i ≤ j ∧ ¬ less (f j) (f a) then scanJGo less f a i fuel (j - 1)
    else j

/-- The main swap loop of Go `partition_func`. -/
def partLoopGo (less : α → α → Bool) (a b : Nat) : Nat → Nat → Nat → (Nat → α) → Nat × (Nat → α)
  | 0, _, j, f => (j, f)
  | fuel + 1, i, j, f =>
    let i := scanIGo less f a j b i
    let j := scanJGo less f a i b j
    if i > j then (j, f)
    else partLoopGo less a b fuel (i + 1) (j - 1) (fnSwap f i j)

/-- Go `partition_func`: returns the new pivot position, the
`alreadyPartitioned` flag, and the permuted data. -/
def partitionGo (less : α → α → Bool) (a b pivot : Nat) (f : Nat → α) :
    Nat × Bool × (Nat → α) :=
  let f := fnSwap f a pivot
  let i := scanIGo less f a (b - 1) b (a + 1)
  let j := scanJGo less f a i b (b - 1)
  if i > j then (j, true, fnSwap f j a)
  else
    let (j2, f) := partLoopGo less a b b (i + 1) (j - 1) (fnSwap f i j)
    (j2, false, fnSwap f j2 a)

/-- The `i`-advancing scan of Go `partitionEqual_func`
(`for i <= j && !data.Less(a, i)`). -/
def scanIEqGo (less : α → α → Bool) (f : Nat → α) (a j : Nat) : Nat → Nat → Nat
  | 0, i => i
  | fuel + 1, i =>
    if i ≤ j ∧ ¬ less (f a) (f i) then scanIEqGo less f a j fuel (i + 1)
    else i

/-- The `j`-descending scan of Go `partitionEqual_func`
(`for i <= j && data.Less(a, j)`). -/
def scanJEqGo (less : α → α → Bool) (f : Nat → α) (a i : Nat) : Nat → Nat → Nat
  | 0, j => j
  | fuel + 1, j =>
    if i ≤ j ∧ less (f a) (f j) then scanJEqGo less f a i fuel (j - 1)
    else j

/-- The swap loop of Go `partitionEqual_func`; returns the final `i`. -/
def partEqLoopGo (less : α → α → Bool) (a b : Nat) : Nat → Nat → Nat → (Nat → α) → Nat × (Nat → α)
  | 0, i, _, f => (i, f)
  | fuel + 1, i, j, f =>
    let i := scanIEqGo less f a j b i
    let j := scanJEqGo less f a i b j
    if i > j then (i, f)
    else partEqLoopGo less a b fuel (i + 1) (j - 1) (fnSwap f i j)

/-- Go `partitionEqual_func`. -/
def partitionEqualGo (less : α → α → Bool) (a b pivot : Nat) (f : Nat → α) :
    Nat × (Nat → α) :=
  let f := fnSwap f a pivot
  partEqLoopGo less a b b (a + 1) (b - 1) f

/-- Go `pdqsort_func` (`maxInsertion = 12`); the first argument is fuel for
the outer loop and the recursive calls, the next three are `a`, `b`,
`limit`, then the `wasBalanced` and `wasPartitioned` flags (initially
`true` in each Go invocation). -/
def pdqAux (less : α → α → Bool) : Nat → Nat → Nat → Nat → Bool → Bool → (Nat → α) → (Nat → α)
  | 0, _, _, _, _, _, f => f
  | fuel + 1, a, b, limit, wasBalanced, wasPartitioned, f =>
    let length := b - a
    if length ≤ 12 then insertionSortGo less a b f
    else if limit = 0 then heapSortGo less a b f
    else
      let (f, limit) :=
        if ¬ wasBalanced then (breakPatternsGo a b f, limit - 1) else (f, limit)
      let (pivot, hint) := choosePivotGo less f a b
      let (pivot, hint, f) :=
        if hint = SortHint.dec then
          ((b - 1) - (pivot - a), SortHint.inc, reverseRangeGo (b - a) a (b - 1) f)
        else (pivot, hint, f)
      let (done, f) :=
        if wasBalanced ∧ wasPartitioned ∧ hint = SortHint.inc then
          partialInsertionSortGo less a b f
        else (false, f)
      if done then f
      else if 0 < a ∧ ¬ less (f (a - 1)) (f pivot) then
        let (mid, f) := partitionEqualGo less a b pivot f
        pdqAux less fuel mid b limit wasBalanced wasPartitioned f
      else
        let (mid, alreadyPartitioned, f) := partitionGo less a b pivot f
        let leftLen := mid - a
        let rightLen := b - mid
        let balanceThreshold := length / 8
        let nowBalanced := decide (min leftLen rightLen ≥ balanceThreshold)
        if leftLen < rightLen then
          let f := pdqAux less fuel a mid limit true true f
          pdqAux less fuel (mid + 1) b limit nowBalanced alreadyPartitioned f
        else
          let f := pdqAux less fuel (mid + 1) b limit true true f
          pdqAux less fuel a mid limit nowBalanced alreadyPartitioned f

/-- Go `sort.Slice`: `pdqsort_func(data, 0, n, bits.Len(uint(n)))` on a
list-valued field, read back element by element.  The fuel `(n+2)²`
strictly dominates the number of loop iterations and recursive calls. -/
def sortSliceList (less : α → α → Bool) (l : List α) : List α :=
  let n := l.length
  let g := pdqAux less ((n + 2) * (n + 2)) 0 n (bitsLenGo n) true true
    (fun i => l.getD i default)
  (List.range n).map g

end GoSort

/-- The comparison closure passed to `sort.Slice` in `Engine.Compile`
(engine.go lines 72-75). -/
def lessByPriority (x y : CompiledFirewallRule) : Bool :=
  decide (x.priority < y.priority)

/-- `Engine.Compile` from engine.go.  The impure reads — `uuid.NewString()`
and the two `time.Now()` calls — are passed in as the `id`, `version` and
`createdAt` arguments. -/
def Compile (o : NetOracle) (id : String) (version createdAt : Int)
    (manifests : List Manifest) : Except String IR :=
  match ValidateAll o manifests with
  | some ve => .error ("validation failed: " ++ veMessage ve)
  | none =>
    let ir : IR :=
      { id := id, version := version, createdAt := createdAt
        firewallRules := [], natRules := [], loadBalancers := []
        vpnConfigs := [], idsRules := [] }
    let ir := manifests.foldl addManifest ir
    .ok { ir with firewallRules := sortSliceList lessByPriority ir.firewallRules }

/-! ## Manifest parser (`internal/policy/parser.go`)

The yaml layer is embedded at the level `Parser.ParseReader` consumes it: a
`YamlDoc` is one decoded document node.  A field absent from the document
decodes into the Go zero value, which the `Option`/`getD` pairs make
explicit; a document without a `spec` node decodes into the kind-specific
zero-valued spec. -/

/-- The `metadata` mapping of one yaml document (each field optional). -/
structure YamlMetadataNode where
  name : Option String
  namespace_ : Option String
  labels : List (String × String)
  annots : List (String × String)
  deriving Repr, DecidableEq, Inhabited

/-- One decoded yaml document as seen by `ParseReader`: the generic header
fields plus the typed decodings of its `spec` node. -/
structure YamlDoc where
  apiVersion : Option String
  kind : Option String
  metadata : Option YamlMetadataNode
  firewallSpec : Option FirewallPolicySpec
  loadBalancerSpec : Option LoadBalancerPolicySpec
  vpnSpec : Option VPNPolicySpec
  natSpec : Option NATPolicySpec
  idsSpec : Option IDSPolicySpec
  deriving Repr, DecidableEq, Inhabited

/-- Decoding the header `Metadata` struct from the document: absent
fields (including `namespace`) become Go zero values. -/
def decodeMetadata : Option YamlMetadataNode → Metadata
  | none => { name := "", namespace_ := "", labels := [], annots := [] }
  | some n =>
    { name := n.name.getD ""
      namespace_ := n.namespace_.getD ""
      labels := n.labels
      annots := n.annots }

/-- The per-document body of the decode loop in `Parser.ParseReader`
(parser.go lines 53-131): header extraction, apiVersion check, and the
kind switch that decodes the spec. -/
def parseDoc (doc : YamlDoc) : Except String Manifest :=
  let apiVersion := doc.apiVersion.getD ""
  let kind := doc.kind.getD ""
  if apiVersion ≠ APIVersion then
    .error ("unsupported apiVersion " ++ quoteGo apiVersion ++ " (want " ++ APIVersion ++ ")")
  else
    let base : Manifest :=
      { apiVersion := apiVersion, kind := kind, metadata := decodeMetadata doc.metadata
        firewallSpec := none, loadBalancerSpec := none, vpnSpec := none
        natSpec := none, idsSpec := none }
    if kind = KindFirewallPolicy then
      .ok { base with firewallSpec := some (doc.firewallSpec.getD ⟨"", []⟩) }
    else if kind = KindLoadBalancerPolicy then
      .ok { base with loadBalancerSpec := some (doc.loadBalancerSpec.getD ⟨default, default, none⟩) }
    else if kind = KindVPNPolicy then
      .ok { base with vpnSpec := some (doc.vpnSpec.getD ⟨"", 0, "", [], []⟩) }
    else if kind = KindNATPolicy then
      .ok { base with natSpec := some (doc.natSpec.getD ⟨[]⟩) }
    else if kind = KindIDSPolicy then
      .ok { base with idsSpec := some (doc.idsSpec.getD ⟨"", [], [], []⟩) }
    else .error ("unknown Kind " ++ quoteGo kind)

/-- `Parser.ParseReader` over the stream's decoded documents. -/
def ParseReader : List YamlDoc → Except String (List Manifest)
  | [] => .ok []
  | d :: ds =>
    match parseDoc d with
    | .error e => .error e
    | .ok m =>
      match ParseReader ds with
      | .error e => .error e
      | .ok ms => .ok (m :: ms)

/-- `filepath.Glob(filepath.Join(dir, "*" ++ ext))` over a directory:
`listing` is the directory's file names in lexicographic order (Glob
returns sorted names), and the result keeps the ones ending in `ext`. -/
def globSuffix (listing : List String) (ext : String) : List String :=
  listing.filter (fun n => ext.data.isSuffixOf n.data)

/-- The inner `for _, path := range matches` loop of `Parser.ParseDir`:
parse each file, wrapping errors as `parsing <path>: <err>`, and
concatenate the results.  `parseFile` stands for `Parser.ParseFile`. -/
def parseFiles (parseFile : String → Except String (List Manifest)) :
    List String → Except String (List Manifest)
  | [] => .ok []
  | f :: fs =>
    match parseFile f with
    | .error e => .error ("parsing " ++ f ++ ": " ++ e)
    | .ok ms =>
      match parseFiles parseFile fs with
      | .error e => .error e
      | .ok rest => .ok (ms ++ rest)

/-- `Parser.ParseDir` from parser.go: the outer loop over the two glob
patterns, `*.yaml` first and `*.yml` second. -/
def ParseDir (parseFile : String → Except String (List Manifest))
    (listing : List String) : Except String (List Manifest) :=
  match parseFiles parseFile (globSuffix listing (".yaml")) with
  | .error e => .error e
  | .ok a =>
    match parseFiles parseFile (globSuffix listing (".yml")) with
    | .error e => .error e
    | .ok b => .ok (a ++ b)

/-- The behaviour claim C5 describes, written from the spec's words for
comparison: every `.yaml`/`.yml` file processed in a single pass in
lexicographic filename order. -/
def parseDirClaimed (parseFile : String → Except String (List Manifest))
    (listing : List String) : Except String (List Manifest) :=
  parseFiles parseFile
    (listing.filter (fun n =>
      (".yaml".data.isSuffixOf n.data) || (".yml".data.isSuffixOf n.data)))

/-! ## nftables adapter (`internal/firewall/nftables.go`) -/

/-- `Adapter` from nftables.go (the logger is omitted: it carries no
behaviour). -/
structure Adapter where
  tableName : String
  rollbackDir : String
  dryRun : Bool
  deriving Repr, DecidableEq, Inhabited

/-- `translateFirewallRule` from nftables.go: the ordered `parts` list
joined by single spaces. -/
def translateFirewallRule (r : CompiledFirewallRule) : String :=
  let parts : List String :=
    (if r.protocol ≠ "" then ["meta l4proto " ++ r.protocol] else [])
    ++ (if r.srcAddrs.length = 1 then ["ip saddr " ++ r.srcAddrs.headD ""]
        else if r.srcAddrs.length > 1 then
          ["ip saddr \x7b " ++ String.intercalate (", ") r.srcAddrs ++ " \x7d"]
        else [])
    ++ (if r.dstAddrs.length = 1 then ["ip daddr " ++ r.dstAddrs.headD ""]
        else if r.dstAddrs.length > 1 then
          ["ip daddr \x7b " ++ String.intercalate (", ") r.dstAddrs ++ " \x7d"]
        else [])
    ++ (if r.srcPorts.length = 1 then [r.protocol ++ " sport " ++ r.srcPorts.headD ""]
        else if r.srcPorts.length > 1 then
          [r.protocol ++ " sport \x7b " ++ String.intercalate (", ") r.srcPorts ++ " \x7d"]
        else [])
    ++ (if r.dstPorts.length = 1 then [r.protocol ++ " dport " ++ r.dstPorts.headD ""]
        else if r.dstPorts.length > 1 then
          [r.protocol ++ " dport \x7b " ++ String.intercalate (", ") r.dstPorts ++ " \x7d"]
        else [])
    ++ (if r.states.length > 0 then
          ["ct state \x7b " ++ String.intercalate (", ") r.states ++ " \x7d"]
        else [])
    ++ (if r.rateLimit ≠ "" then ["limit rate " ++ r.rateLimit] else [])
    ++ (if r.log then ["log prefix \"[aegisx] " ++ r.comment ++ ": \""] else [])
    ++ [r.action]
    ++ (if r.comment ≠ "" then ["comment \"" ++ r.comment ++ "\""] else [])
  String.intercalate (" ") parts

/-- `translateDNAT` from nftables.go. -/
def translateDNAT (r : CompiledNATRule) : String :=
  (if r.srcAddr ≠ "" then "ip saddr " ++ r.srcAddr ++ " " else "")
  ++ (if r.dstAddr ≠ "" then "ip daddr " ++ r.dstAddr ++ " " else "")
  ++ "dnat to " ++ r.toAddr

/-- `translateSNAT` from nftables.go. -/
def translateSNAT (r : CompiledNATRule) : String :=
  (if r.srcAddr ≠ "" then "ip saddr " ++ r.srcAddr ++ " " else "")
  ++ (if r.outIface ≠ "" then "oif " ++ r.outIface ++ " " else "")
  ++ "snat to " ++ r.toAddr

/-- `translateMasquerade` from nftables.go. -/
def translateMasquerade (r : CompiledNATRule) : String :=
  (if r.srcAddr ≠ "" then "ip saddr " ++ r.srcAddr ++ " " else "")
  ++ (if r.outIface ≠ "" then "oif " ++ r.outIface ++ " " else "")
  ++ "masquerade"

/-- The `templateData` struct built inside `Adapter.Translate`. -/
structure NftTemplateData where
  tableName : String
  timestamp : String
  defaultInputPolicy : String
  defaultForwardPolicy : String
  defaultOutputPolicy : String
  inputRules : List String
  forwardRules : List String
  outputRules : List String
  dnatRules : List String
  snatRules : List String
  deriving Repr, DecidableEq, Inhabited

/-- The chain-routing loop of `Adapter.Translate` (nftables.go lines
158-168): each compiled rule's statement is appended to the list for its
chain, `forward` being the default. -/
def routeFirewallRules (rules : List CompiledFirewallRule) :
    List String × List String × List String :=
  rules.foldl
    (fun acc r =>
      let stmt := translateFirewallRule r
      if r.chain = "input" then (acc.1 ++ [stmt], acc.2.1, acc.2.2)
      else if r.chain = "output" then (acc.1, acc.2.1, acc.2.2 ++ [stmt])
      else (acc.1, acc.2.1 ++ [stmt], acc.2.2))
    ([], [], [])

/-- The NAT-routing loop of `Adapter.Translate` (nftables.go lines
171-180). -/
def routeNATRules (rules : List CompiledNATRule) : List String × List String :=
  rules.foldl
    (fun acc r =>
      if r.type_ = "DNAT" then (acc.1 ++ [translateDNAT r], acc.2)
      else if r.type_ = "SNAT" then (acc.1, acc.2 ++ [translateSNAT r])
      else if r.type_ = "MASQUERADE" then (acc.1, acc.2 ++ [translateMasquerade r])
      else acc)
    ([], [])

/-- `Adapter.Translate`'s construction of `templateData`: `Timestamp` is
the `time.Now().UTC().Format(time.RFC3339)` read, passed in explicitly. -/
def buildTemplateData (a : Adapter) (ir : IR) (timestamp : String) : NftTemplateData :=
  let (inp, fwd, outp) := routeFirewallRules ir.firewallRules
  let (dnat, snat) := routeNATRules ir.natRules
  { tableName := a.tableName
    timestamp := timestamp
    defaultInputPolicy := "drop"
    defaultForwardPolicy := "drop"
    defaultOutputPolicy := "accept"
    inputRules := inp
    forwardRules := fwd
    outputRules := outp
    dnatRules := dnat
    snatRules := snat }

/-- A `range` block of `nftTableTemplate`: each element followed by a
newline and the 8-space indent that precedes the next iteration. -/
def renderRuleBlock (rules : List String) : String :=
  String.join (rules.map (fun r => r ++ "\n        "))

/-- The literal template text preceding the `.Timestamp` interpolation in
`nftTableTemplate`. -/
def nftHead : String := "# AegisX nftables ruleset — generated "

/-- The rendering of `nftTableTemplate` after the `.Timestamp`
interpolation: the remaining literal chunks of the template interleaved, in
template order, with the remaining `templateData` fields. -/
def renderNftRest (d : NftTemplateData) : String :=
  "\n# DO NOT EDIT MANUALLY — managed by aegisx\n\ntable inet "
  ++ d.tableName
  ++ " \x7b\n    # ── Connection tracking ────────────────────────────────────────────\n    chain ct_state \x7b\n        ct state invalid drop comment \"drop invalid\"\n        ct state \x7b established, related \x7d accept comment \"accept established\"\n    \x7d\n\n    # ── Input chain ────────────────────────────────────────────────────\n    chain input \x7b\n        type filter hook input priority 0; policy "
  ++ d.defaultInputPolicy
  ++ ";\n        jump ct_state\n        iif lo accept comment \"loopback\"\n        "
  ++ renderRuleBlock d.inputRules
  ++ "\n    \x7d\n\n    # ── Forward chain ──────────────────────────────────────────────────\n    chain forward \x7b\n        type filter hook forward priority 0; policy "
  ++ d.defaultForwardPolicy
  ++ ";\n        jump ct_state\n        "
  ++ renderRuleBlock d.forwardRules
  ++ "\n    \x7d\n\n    # ── Output chain ───────────────────────────────────────────────────\n    chain output \x7b\n        type filter hook output priority 0; policy "
  ++ d.defaultOutputPolicy
  ++ ";\n        ct state \x7b established, related \x7d accept\n        "
  ++ renderRuleBlock d.outputRules
  ++ "\n    \x7d\n\n    # ── NAT prerouting ────────────────────────────────────────────────\n    chain prerouting \x7b\n        type nat hook prerouting priority dstnat;\n        "
  ++ renderRuleBlock d.dnatRules
  ++ "\n    \x7d\n\n    # ── NAT postrouting ───────────────────────────────────────────────\n    chain postrouting \x7b\n        type nat hook postrouting priority srcnat;\n        "
  ++ renderRuleBlock d.snatRules
  ++ "\n    \x7d\n\x7d\n"

/-- `text/template` execution of `nftTableTemplate` on `templateData`:
literal chunks and interpolated fields written in template order. -/
def renderNftTemplate (d : NftTemplateData) : String :=
  nftHead ++ d.timestamp ++ renderNftRest d

/-- `Adapter.Translate` from nftables.go.  The template is fixed and
valid, so the Go error return is always nil; `timestamp` is the
`time.Now()` read made inside the function. -/
def Translate (a : Adapter) (ir : IR) (timestamp : String) : String :=
  renderNftTemplate (buildTemplateData a ir timestamp)

/-! ## Diff engine and rollback (`internal/firewall/nftables.go`) -/

/-- The line splitter used by `simpleDiff`: Go `strings.Split(s, "\n")`. -/
def splitLinesAux : List Char → List Char → List String
  | [], acc => [String.mk acc.reverse]
  | c :: rest, acc =>
    if c = '\n' then String.mk acc.reverse :: splitLinesAux rest []
    else splitLinesAux rest (c :: acc)

/-- Go `strings.Split(s, "\n")`. -/
def splitLines (s : String) : List String := splitLinesAux s.data []

/-- The whitespace class of Go `strings.TrimSpace` for the ASCII range
(the only whitespace occurring in rulesets). -/
def isSpaceGo (c : Char) : Bool :=
  c = ' ' ∨ c = '\t' ∨ c = '\n' ∨ c = '\r' ∨ c = '\x0B' ∨ c = '\x0C'

/-- Go `strings.TrimSpace`. -/
def trimSpace (s : String) : String :=
  String.mk (((s.data.dropWhile isSpaceGo).reverse.dropWhile isSpaceGo).reverse)

/-- `simpleDiff` from nftables.go: line-set symmetric difference keyed by
trimmed lines (the Go `map[string]bool` sets become trimmed-line lists
queried by membership). -/
def simpleDiff (current proposed : String) : String :=
  let cLines := splitLines current
  let pLines := splitLines proposed
  let cSet := cLines.map trimSpace
  let pSet := pLines.map trimSpace
  String.join ((cLines.filter (fun l => ! pSet.contains (trimSpace l))).map
    (fun l => "- " ++ l ++ "\n"))
  ++ String.join ((pLines.filter (fun l => ! cSet.contains (trimSpace l))).map
    (fun l => "+ " ++ l ++ "\n"))

/-- `Adapter.Diff` from nftables.go: `live` is the result of
`dumpCurrent()` (`none` models its error when no table exists), and
`timestamp` is the `time.Now()` read inside the fresh translation. -/
def Diff (a : Adapter) (ir : IR) (live : Option String) (timestamp : String) : String :=
  let proposed := Translate a ir timestamp
  match live with
  | none => "--- current (empty)\n+++ proposed\n" ++ proposed
  | some current => simpleDiff current proposed

/-- Go `filepath.Join` for a directory and a plain file name. -/
def filepathJoin (dir name : String) : String := dir ++ "/" ++ name

/-- Lexicographic (byte/character) order on file names: the order
`os.ReadDir` sorts directory entries by. -/
def charListLe : List Char → List Char → Bool
  | [], _ => true
  | _ :: _, [] => false
  | a :: as, b :: bs =>
    if a < b then true else if a = b then charListLe as bs else false

/-- `charListLe` on whole file names. -/
def fileNameLe (x y : String) : Bool := charListLe x.data y.data

/-- `Adapter.latestRollbackFile` from nftables.go: `entries` is the
`os.ReadDir` result, i.e. every file name in the rollback directory in
lexicographic order. -/
def latestRollbackFile (a : Adapter) (entries : List String) : Except String String :=
  match entries.getLast? with
  | none => .error ("no rollback snapshots found")
  | some name => .ok (filepathJoin a.rollbackDir name)

/-- `Adapter.Rollback` from nftables.go: `loader` models the
`nft -f <file>` subprocess. -/
def Rollback (a : Adapter) (entries : List String)
    (loader : String → Except String Unit) : Except String Unit :=
  match latestRollbackFile a entries with
  | .error e => .error ("find rollback file: " ++ e)
  | .ok latest =>
    match loader latest with
    | .error e => .error ("rollback apply failed: " ++ e)
    | .ok _ => .ok ()

/-! ## Policy controller (`internal/firewall/adapter.go`) -/

/-- `Service.ApplyIR` from adapter.go, acting on the `current` field:
`adapterApply` is the outcome of `s.adapter.Apply(ir)`.  The pair returned
is (error result, new value of `s.current`). -/
def ServiceApplyIR (current : Option IR) (ir : IR)
    (adapterApply : Except String Unit) : Except String Unit × Option IR :=
  match adapterApply with
  | .error e => (.error e, current)
  | .ok _ => (.ok (), some ir)

/-- `Service.ApplyManifests` from adapter.go: compile, then `ApplyIR`.
The compiler's impure reads are the `id`/`version`/`createdAt` arguments. -/
def ServiceApplyManifests (o : NetOracle) (id : String) (version createdAt : Int)
    (current : Option IR) (manifests : List Manifest)
    (adapterApply : Except String Unit) : Except String Unit × Option IR :=
  match Compile o id version createdAt manifests with
  | .error e => (.error ("compile: " ++ e), current)
  | .ok ir => ServiceApplyIR current ir adapterApply

/-! ## Concrete inputs used by counterexamples and witnesses -/

/-- A network oracle on which every address parses (the concrete inputs
below use no addresses, so any oracle behaves identically on them). -/
def exOracle : NetOracle :=
  { parseCIDROk := fun _ => true
    parseIPOk := fun _ => true
    splitHostPortOk := fun _ => true }

/-- An adapter with the stock configuration. -/
def exAdapter : Adapter :=
  { tableName := "aegisx", rollbackDir := "/var/lib/aegisx/rollback", dryRun := false }

/-- An IR with no rules. -/
def exEmptyIR : IR :=
  { id := "ir-empty", version := 0, createdAt := 0, firewallRules := []
    natRules := [], loadBalancers := [], vpnConfigs := [], idsRules := [] }

/-- A second distinct IR. -/
def exIRB : IR :=
  { id := "ir-b", version := 1, createdAt := 1, firewallRules := []
    natRules := [], loadBalancers := [], vpnConfigs := [], idsRules := [] }

/-- A firewall rule with only a name and a priority set. -/
def exRule (n : String) (p : Int) : FirewallRule :=
  { name := n, priority := p, action := "ALLOW", protocol := ""
    source := default, dest := default, state := [], rateLimit := none
    log := false, comment := "" }

/-- The declared priorities of the 13-rule stability counterexample. -/
def exPriorities : List Int := [6, 7, 8, 9, 1, 2, 3, 5, 4, 7, 10, 11, 3]

/-- A valid FirewallPolicy manifest with 13 rules `r0 … r12` carrying
`exPriorities` (so `r1` and `r9` share priority 7, and `r6` and `r12`
share priority 3, in that input order). -/
def exManifest13 : Manifest :=
  { apiVersion := APIVersion, kind := KindFirewallPolicy
    metadata := { name := "p", namespace_ := "ns", labels := [], annots := [] }
    firewallSpec := some
      { defaultAction := ""
        rules := exPriorities.zipWith (fun p i => exRule ("r" ++ toString i) p)
          (List.range 13) }
    loadBalancerSpec := none, vpnSpec := none, natSpec := none, idsSpec := none }

/-- The firewall rules of the compiled `exManifest13` IR, projected to
(priority, comment) pairs. -/
def exCompiled13 : List (Int × String) :=
  match Compile exOracle "cid" 0 0 [exManifest13] with
  | .ok ir => ir.firewallRules.map (fun r => (r.priority, r.comment))
  | .error _ => []

/-- An invalid manifest: its `metadata.name` is empty. -/
def exBadManifest : Manifest :=
  { apiVersion := APIVersion, kind := KindFirewallPolicy
    metadata := { name := "", namespace_ := "", labels := [], annots := [] }
    firewallSpec := some { defaultAction := "", rules := [] }
    loadBalancerSpec := none, vpnSpec := none, natSpec := none, idsSpec := none }

/-- The error `ServiceApplyManifests` surfaces for `exBadManifest`. -/
def exCompileErr : String :=
  "compile: validation failed: validation errors:\n  - [/]: metadata.name is required"

/-- A NATPolicy manifest with an empty `metadata.name`. -/
def exNoNameNAT : Manifest :=
  { apiVersion := APIVersion, kind := KindNATPolicy
    metadata := { name := "", namespace_ := "prod", labels := [], annots := [] }
    firewallSpec := none, loadBalancerSpec := none, vpnSpec := none
    natSpec := some { rules := [] }, idsSpec := none }

/-- A firewall spec with one rule of declared priority 0. -/
def exZeroSpec : FirewallPolicySpec := { defaultAction := "", rules := [exRule "auto" 0] }

/-- A manifest holding `exZeroSpec`. -/
def exZeroManifest : Manifest :=
  { apiVersion := APIVersion, kind := KindFirewallPolicy
    metadata := { name := "p", namespace_ := "ns", labels := [], annots := [] }
    firewallSpec := some exZeroSpec
    loadBalancerSpec := none, vpnSpec := none, natSpec := none, idsSpec := none }

/-- A manifest with one rule of declared priority −5. -/
def exNegManifest : Manifest :=
  { apiVersion := APIVersion, kind := KindFirewallPolicy
    metadata := { name := "p", namespace_ := "ns", labels := [], annots := [] }
    firewallSpec := some { defaultAction := "", rules := [exRule "neg" (-5)] }
    loadBalancerSpec := none, vpnSpec := none, natSpec := none, idsSpec := none }

/-- A minimal IDSPolicy manifest named `n`, used to tag parse results. -/
def exNamedManifest (n : String) : Manifest :=
  { apiVersion := APIVersion, kind := KindIDSPolicy
    metadata := { name := n, namespace_ := "", labels := [], annots := [] }
    firewallSpec := none, loadBalancerSpec := none, vpnSpec := none
    natSpec := none
    idsSpec := some { mode := "", ruleSets := [], customRules := [], thresholds := [] } }

/-- A `Parser.ParseFile` stub: `a.yml` holds the manifest named `a`,
any other file the manifest named `b`. -/
def exParseFile : String → Except String (List Manifest) := fun f =>
  if f = "a.yml" then .ok [exNamedManifest ("a")] else .ok [exNamedManifest ("b")]

/-- The firewall rule of the namespace-defaulting scenario. -/
def exHttpRule : FirewallRule :=
  { name := "allow-http", priority := 0, action := "ALLOW", protocol := "tcp"
    source := default, dest := default, state := [], rateLimit := none
    log := false, comment := "" }

/-- A yaml document whose `metadata` has a name but omits `namespace`. -/
def exDocNoNs : YamlDoc :=
  { apiVersion := some APIVersion, kind := some KindFirewallPolicy
    metadata := some { name := some "web-allow", namespace_ := none, labels := [], annots := [] }
    firewallSpec := some { defaultAction := "DROP", rules := [exHttpRule] }
    loadBalancerSpec := none, vpnSpec := none, natSpec := none, idsSpec := none }

/-- The manifest `ParseReader` produces for `exDocNoNs`. -/
def exParsedNoNs : Manifest :=
  { apiVersion := APIVersion, kind := KindFirewallPolicy
    metadata := { name := "web-allow", namespace_ := "", labels := [], annots := [] }
    firewallSpec := some { defaultAction := "DROP", rules := [exHttpRule] }
    loadBalancerSpec := none, vpnSpec := none, natSpec := none, idsSpec := none }

/-- The two timestamp strings of the translation counterexamples. -/
def exTs1 : String := "2024-01-01T00:00:00Z"

/-- Second, one second later, timestamp. -/
def exTs2 : String := "2024-01-01T00:00:01Z"

/-! ## Helper lemmas -/

/-- Appending to the empty string is the identity. -/
theorem empty_string_append (s : String) : "" ++ s = s := rfl

/-- A manifest that validates to an error carries at least one message. -/
theorem validate_errors_length_pos {o : NetOracle} {m : Manifest}
    {ve : ValidationError} (h : Validate o m = some ve) : 1 ≤ ve.errors.length := by
  unfold Validate at h
  by_cases he : (validateErrs o m).isEmpty
  · simp [he] at h
  · simp [he] at h
    cases hl : validateErrs o m with
    | nil => rw [hl] at he; simp at he
    | cons x xs => rw [← h, hl]; simp

/-- The invalid-manifest count is dominated by the collected error count. -/
theorem countP_le_validateAllErrs (o : NetOracle) (ms : List Manifest) :
    ms.countP (fun m => (Validate o m).isSome) ≤ (validateAllErrs o ms).length := by
  induction ms with
  | nil => simp [validateAllErrs]
  | cons m ms ih =>
    rw [List.countP_cons]
    unfold validateAllErrs
    rw [List.length_append]
    cases hv : Validate o m with
    | none => simpa [hv] using ih
    | some ve =>
      have h1 := validate_errors_length_pos hv
      simp only [hv, Option.isSome_some, if_pos]
      omega

/-- `compileRules` preserves the number of rules. -/
theorem compileRules_length (md : Metadata) (rs : List FirewallRule) :
    ∀ n, (compileRules md n rs).length = rs.length := by
  induction rs with
  | nil => intro n; rfl
  | cons r rs ih => intro n; simp [compileRules, ih]

/-- Element `i` of `compileRules` starting at index `n` is the compilation
of rule `i` at loop index `n + i`. -/
theorem compileRules_getElem? (md : Metadata) (rs : List FirewallRule) :
    ∀ n i, (compileRules md n rs)[i]? = (rs[i]?).map (fun r => compileRule md (n + i) r) := by
  induction rs with
  | nil => intro n i; simp [compileRules]
  | cons r rs ih =>
    intro n i
    cases i with
    | zero => simp [compileRules]
    | succ i =>
      have hn : n + 1 + i = n + (i + 1) := by omega
      simp [compileRules, ih (n + 1) i, hn]

/-- A mapped image is contained in the mapped list. -/
theorem contains_map_of_mem {l : List String} {x : String} (f : String → String)
    (hx : x ∈ l) : (l.map f).contains (f x) = true := by
  have hm : f x ∈ l.map f := List.mem_map_of_mem f hx
  simpa [List.contains, List.elem_iff] using hm

/-- `simpleDiff` of a text against itself is empty. -/
theorem simpleDiff_self (s : String) : simpleDiff s s = "" := by
  unfold simpleDiff
  have h : (splitLines s).filter
      (fun l => ! ((splitLines s).map trimSpace).contains (trimSpace l)) = [] := by
    apply List.filter_eq_nil_iff.mpr
    intro l hl
    rw [contains_map_of_mem trimSpace hl]
    simp
  simp only [h, List.map_nil, String.join]
  rfl

/-- `parseFiles` distributes over list concatenation with first-error
propagation. -/
theorem parseFiles_append (pf : String → Except String (List Manifest))
    (xs ys : List String) :
    parseFiles pf (xs ++ ys) =
      match parseFiles pf xs with
      | .error e => .error e
      | .ok a =>
        match parseFiles pf ys with
        | .error e => .error e
        | .ok b => .ok (a ++ b) := by
  induction xs with
  | nil =>
    simp only [List.nil_append, parseFiles]
    cases parseFiles pf ys <;> simp
  | cons f fs ih =>
    simp only [List.cons_append, parseFiles, List.append_eq]
    cases pf f with
    | error e => rfl
    | ok ms =>
      rw [ih]
      cases parseFiles pf fs with
      | error e => rfl
      | ok a =>
        cases parseFiles pf ys with
        | error e => rfl
        | ok b => simp [List.append_assoc]

/-- `charListLe` is reflexive. -/
theorem charListLe_refl (l : List Char) : charListLe l l = true := by
  induction l with
  | nil => rfl
  | cons c cs ih => simp [charListLe, ih]

/-- `fileNameLe` is reflexive. -/
theorem fileNameLe_refl (x : String) : fileNameLe x x = true :=
  charListLe_refl x.data

/-- In a listing sorted by `fileNameLe`, every name is dominated by the
last one. -/
theorem le_getLast_of_sorted :
    ∀ (l : List String), List.Pairwise (fun x y => fileNameLe x y = true) l →
      ∀ (hne : l ≠ []) (x : String), x ∈ l → fileNameLe x (l.getLast hne) = true := by
  intro l
  induction l with
  | nil => intro _ hne; exact absurd rfl hne
  | cons a t ih =>
    intro hs hne x hx
    rw [List.pairwise_cons] at hs
    cases t with
    | nil =>
      have hxa : x = a := by simpa using hx
      subst hxa
      exact fileNameLe_refl x
    | cons b t2 =>
      have hne2 : (b :: t2 : List String) ≠ [] := by simp
      rw [List.getLast_cons hne2]
      rcases hx with _ | hmem
      · exact hs.1 _ (List.getLast_mem hne2)
      · exact ih hs.2 hne2 x (by assumption)

/-! ## Claim C1 — translation purity -/

/-- C1 (counterexample): `Translate` is *not* a pure function of the IR and
the template alone — two invocations on the same IR with different
`time.Now()` readings give different ruleset text, because the template
embeds the generation timestamp. -/
theorem translate_depends_on_clock :
    Translate exAdapter exEmptyIR exTs1 ≠ Translate exAdapter exEmptyIR exTs2 := by
  decide

/-- C1 (amended): `Translate` is a pure function of the IR, the adapter's
table name, and the generation timestamp; the timestamp influences only
the generated-header line, so two invocations on the same IR differ at
most in that line's timestamp slot. -/
theorem translate_pure_modulo_timestamp (a : Adapter) (ir : IR) (t₁ t₂ : String) :
    ∃ body, Translate a ir t₁ = nftHead ++ t₁ ++ body ∧
      Translate a ir t₂ = nftHead ++ t₂ ++ body :=
  ⟨renderNftRest (buildTemplateData a ir t₁), rfl, rfl⟩

/-! ## Claim C3 — atomicity of the stored current IR -/

/-- C3: when the applier fails, `Service.ApplyIR` (and `ApplyManifests`,
also on compile failure) leaves the stored current IR untouched; the store
is updated to the new IR exactly on success. -/
theorem service_apply_failure_preserves_current
    (o : NetOracle) (id : String) (v ca : Int) (cur : Option IR)
    (ms : List Manifest) (ir : IR) (r : Except String Unit) (e : String) :
    ((ServiceApplyIR cur ir r).1 = .error e → (ServiceApplyIR cur ir r).2 = cur)
    ∧ ((ServiceApplyIR cur ir r).1 = .ok () → (ServiceApplyIR cur ir r).2 = some ir)
    ∧ ((ServiceApplyManifests o id v ca cur ms r).1 = .error e →
        (ServiceApplyManifests o id v ca cur ms r).2 = cur) := by
  refine ⟨?_, ?_, ?_⟩
  · cases r <;> simp [ServiceApplyIR]
  · cases r <;> simp [ServiceApplyIR]
  · unfold ServiceApplyManifests
    cases Compile o id v ca ms with
    | error e2 => simp
    | ok ir2 => cases r <;> simp [ServiceApplyIR]

/-- C3 (witness): concrete instances of the three parts — a failing
adapter leaves the prior IR, a successful one installs the new IR, and a
failing compile leaves the prior IR. -/
theorem service_apply_failure_preserves_current_witness :
    (ServiceApplyIR (some exIRB) exEmptyIR (.error ("boom"))).2 = some exIRB
    ∧ (ServiceApplyIR none exIRB (.ok ())).2 = some exIRB
    ∧ (ServiceApplyManifests exOracle "id" 0 0 (some exIRB) [exBadManifest] (.ok ())).2
        = some exIRB := by
  refine ⟨?_, ?_, ?_⟩
  · exact (service_apply_failure_preserves_current exOracle "id" 0 0 (some exIRB)
      [] exEmptyIR (.error ("boom")) ("boom")).1 rfl
  · exact (service_apply_failure_preserves_current exOracle "id" 0 0 none
      [] exIRB (.ok ()) ("boom")).2.1 rfl
  · exact (service_apply_failure_preserves_current exOracle "id" 0 0 (some exIRB)
      [exBadManifest] exEmptyIR (.ok ()) exCompileErr).2.2 rfl

/-! ## Claim C8 — validation aggregation -/

/-- C8: with `k` individually-invalid manifests in the input,
`ValidateAll` returns a `ValidationError` carrying at least `k`
messages. -/
theorem validate_all_aggregates (o : NetOracle) (ms : List Manifest)
    (h : 0 < ms.countP (fun m => (Validate o m).isSome)) :
    ∃ ve, ValidateAll o ms = some ve ∧
      ms.countP (fun m => (Validate o m).isSome) ≤ ve.errors.length := by
  have hle := countP_le_validateAllErrs o ms
  have hne : ¬ (validateAllErrs o ms).isEmpty := by
    have : 0 < (validateAllErrs o ms).length := lt_of_lt_of_le h hle
    cases hl : validateAllErrs o ms with
    | nil => rw [hl] at this; simp at this
    | cons x xs => intro hfalse; simp at hfalse
  refine ⟨⟨validateAllErrs o ms⟩, ?_, hle⟩
  unfold ValidateAll
  simp [hne]

/-- C8 (witness): two invalid manifests yield an error list of length at
least two. -/
theorem validate_all_aggregates_witness :
    ∃ ve, ValidateAll exOracle [exBadManifest, exBadManifest] = some ve ∧
      List.countP (fun m => (Validate exOracle m).isSome) [exBadManifest, exBadManifest]
        ≤ ve.errors.length :=
  validate_all_aggregates exOracle [exBadManifest, exBadManifest] (by decide)

/-! ## Claim C10 — metadata.name required for every kind -/

/-- C10: for any manifest of any kind whose `metadata.name` is empty,
`Validate` returns a `ValidationError` containing the name-is-required
message (the check precedes the kind switch). -/
theorem metadata_name_required (o : NetOracle) (m : Manifest)
    (h : m.metadata.name = "") :
    ∃ ve, Validate o m = some ve ∧
      (mkCtx m.metadata ++ ": metadata.name is required") ∈ ve.errors := by
  have hv : validateErrs o m =
      (mkCtx m.metadata ++ ": metadata.name is required")
        :: validateKindErrs o (mkCtx m.metadata) m := by
    simp only [validateErrs]
    rw [if_pos h]
    rfl
  refine ⟨⟨validateErrs o m⟩, ?_, ?_⟩
  · unfold Validate
    rw [hv]
    simp
  · rw [hv]
    exact List.mem_cons_self _ _

/-- C10 (witness): a NATPolicy manifest (not a firewall policy) with an
empty name is rejected with the name-is-required message. -/
theorem metadata_name_required_witness :
    ∃ ve, Validate exOracle exNoNameNAT = some ve ∧
      (mkCtx exNoNameNAT.metadata ++ ": metadata.name is required") ∈ ve.errors :=
  metadata_name_required exOracle exNoNameNAT rfl

/-! ## Claim C9 — namespace defaulting -/

/-- C9 (counterexample): a parsed manifest whose document omits
`metadata.namespace` gets the empty namespace, not `"default"`, and its
compiled comments read `/{name}/{rule-name}` and `/{name}/default`. -/
theorem omitted_namespace_not_default :
    ParseReader [exDocNoNs] = .ok [exParsedNoNs]
    ∧ exParsedNoNs.metadata.namespace_ = ""
    ∧ exParsedNoNs.metadata.namespace_ ≠ "default"
    ∧ (compileFirewall exParsedNoNs).map (fun cr => cr.comment)
        = ["/web-allow/allow-http", "/web-allow/default"]
    ∧ ("/web-allow/allow-http" : String) ≠ "default/web-allow/allow-http" := by
  refine ⟨rfl, rfl, by decide, by decide, by decide⟩

/-- C9 (amended): a document that omits `metadata.namespace` parses with
the empty string as namespace (no defaulting happens in the parser), so
compiled comments take the form `/{name}/{rule-name}`. -/
theorem omitted_namespace_left_empty (n : YamlMetadataNode) (i : Nat)
    (r : FirewallRule) (h : n.namespace_ = none) :
    (decodeMetadata (some n)).namespace_ = ""
    ∧ (compileRule (decodeMetadata (some n)) i r).comment
        = "/" ++ (decodeMetadata (some n)).name ++ "/" ++ r.name := by
  constructor
  · simp [decodeMetadata, h]
  · show (decodeMetadata (some n)).namespace_ ++ "/"
        ++ (decodeMetadata (some n)).name ++ "/" ++ r.name
      = "/" ++ (decodeMetadata (some n)).name ++ "/" ++ r.name
    have h0 : (decodeMetadata (some n)).namespace_ = "" := by simp [decodeMetadata, h]
    rw [h0, empty_string_append]

/-- C9 (witness): the amended statement at the concrete header node of the
`web-allow` scenario. -/
theorem omitted_namespace_left_empty_witness :
    (decodeMetadata (some ⟨some "web-allow", none, [], []⟩)).namespace_ = ""
    ∧ (compileRule (decodeMetadata (some ⟨some "web-allow", none, [], []⟩)) 0 exHttpRule).comment
        = "/" ++ (decodeMetadata (some ⟨some "web-allow", none, [], []⟩)).name
          ++ "/" ++ exHttpRule.name :=
  omitted_namespace_left_empty ⟨some "web-allow", none, [], []⟩ 0 exHttpRule rfl

/-! ## Claim C4 — rollback file selection -/

/-- C4 (counterexample): `latestRollbackFile` applies no `rollback-*`
filter.  With a stray file `zzz` in the rollback directory it picks `zzz`
(not the latest snapshot), and with only non-snapshot files present it
still returns a file instead of failing. -/
theorem rollback_ignores_naming_convention :
    latestRollbackFile exAdapter ["rollback-1.conf", "zzz"] =
      .ok ("/var/lib/aegisx/rollback/zzz")
    ∧ ("rollback-".data.isPrefixOf ("zzz").data) = false
    ∧ latestRollbackFile exAdapter ["not-a-snapshot"] =
        .ok ("/var/lib/aegisx/rollback/not-a-snapshot") :=
  ⟨rfl, by decide, rfl⟩

/-- C4 (amended): on an empty directory the lookup fails with
`no rollback snapshots found`; otherwise `latestRollbackFile` returns the
lexicographically-last entry of the whole sorted listing (which is the
latest snapshot exactly when every entry follows the naming convention),
and `Rollback` invokes the loader on that file. -/
theorem rollback_selects_last_entry :
    (∀ a : Adapter, latestRollbackFile a [] = .error ("no rollback snapshots found"))
    ∧ ∀ (a : Adapter) (entries : List String),
        List.Pairwise (fun x y => fileNameLe x y = true) entries →
        entries ≠ [] →
        ∃ name, name ∈ entries ∧ (∀ x ∈ entries, fileNameLe x name = true)
          ∧ latestRollbackFile a entries = .ok (filepathJoin a.rollbackDir name)
          ∧ ∀ loader : String → Except String Unit,
              loader (filepathJoin a.rollbackDir name) = .ok () →
              Rollback a entries loader = .ok () := by
  constructor
  · intro a; rfl
  · intro a entries hs hne
    refine ⟨entries.getLast hne, List.getLast_mem hne,
      fun x hx => le_getLast_of_sorted entries hs hne x hx, ?_, ?_⟩
    · unfold latestRollbackFile
      rw [List.getLast?_eq_getLast entries hne]
    · intro loader hl
      unfold Rollback latestRollbackFile
      rw [List.getLast?_eq_getLast entries hne]
      simp [hl]

/-- C4 (witness): a two-snapshot directory, where the amended statement
picks `rollback-2.conf`. -/
theorem rollback_selects_last_entry_witness :
    ∃ name, name ∈ ["rollback-1.conf", "rollback-2.conf"]
      ∧ (∀ x ∈ ["rollback-1.conf", "rollback-2.conf"], fileNameLe x name = true)
      ∧ latestRollbackFile exAdapter ["rollback-1.conf", "rollback-2.conf"]
          = .ok (filepathJoin exAdapter.rollbackDir name)
      ∧ ∀ loader : String → Except String Unit,
          loader (filepathJoin exAdapter.rollbackDir name) = .ok () →
          Rollback exAdapter ["rollback-1.conf", "rollback-2.conf"] loader = .ok () :=
  rollback_selects_last_entry.2 exAdapter ["rollback-1.conf", "rollback-2.conf"]
    (by decide) (by decide)

/-! ## Claim C5 — directory parse order -/

/-- C5 (counterexample): `ParseDir` runs the `*.yaml` glob before the
`*.yml` glob, so with the listing `[a.yml, b.yaml]` the manifests of
`b.yaml` come first — not the lexicographic file order the claim
states. -/
theorem parsedir_not_lexicographic :
    ParseDir exParseFile ["a.yml", "b.yaml"]
        = .ok [exNamedManifest ("b"), exNamedManifest ("a")]
    ∧ parseDirClaimed exParseFile ["a.yml", "b.yaml"]
        = .ok [exNamedManifest ("a"), exNamedManifest ("b")]
    ∧ ([exNamedManifest ("b"), exNamedManifest ("a")] : List Manifest)
        ≠ [exNamedManifest ("a"), exNamedManifest ("b")] :=
  ⟨rfl, rfl, by decide⟩

/-- C5 (amended): `ParseDir` reads exactly the `.yaml` and `.yml` files,
processing all `.yaml` files in lexicographic order first and then all
`.yml` files in lexicographic order, concatenating each file's manifests
in that processing order (with first-error propagation). -/
theorem parsedir_processes_yaml_then_yml
    (pf : String → Except String (List Manifest)) (listing : List String) :
    ParseDir pf listing =
      parseFiles pf (globSuffix listing (".yaml") ++ globSuffix listing (".yml")) := by
  rw [parseFiles_append]
  rfl

/-! ## Claim C6 — compiled-rule priority assignment -/

/-- C6 (counterexample): a rule with declared priority −5 keeps −5 — the
code reassigns only on priority exactly 0, while the claim requires
`(i+1) × 100` for every non-positive declared priority. -/
theorem negative_priority_not_reassigned :
    (compileFirewall exNegManifest).map (fun cr => cr.priority) = [(-5 : Int)]
    ∧ ((-5 : Int) ≠ ((0 : Int) + 1) * 100) :=
  ⟨rfl, by decide⟩

/-- C6 (amended): the compiled rule for input index `i` keeps the declared
priority whenever it is non-zero (negative values included) and receives
`(i+1) × 100` exactly when the declared priority is 0. -/
theorem compiled_priority_assignment (m : Manifest) (spec : FirewallPolicySpec)
    (i : Nat) (h1 : m.firewallSpec = some spec) (h2 : i < spec.rules.length) :
    ∃ cr, (compileFirewall m)[i]? = some cr ∧
      cr.priority = if (spec.rules[i]).priority = 0 then ((i : Int) + 1) * 100
        else (spec.rules[i]).priority := by
  refine ⟨compileRule m.metadata i (spec.rules[i]), ?_, rfl⟩
  simp only [compileFirewall, h1, Option.getD_some]
  rw [List.getElem?_append_left (by rw [compileRules_length]; exact h2)]
  rw [compileRules_getElem? m.metadata spec.rules 0 i]
  rw [List.getElem?_eq_getElem h2]
  simp

/-- C6 (witness): a declared priority of 0 at input index 0 is assigned
priority 100. -/
theorem compiled_priority_assignment_witness :
    ∃ cr, (compileFirewall exZeroManifest)[0]? = some cr ∧ cr.priority = 100 := by
  obtain ⟨cr, hget, hpri⟩ :=
    compiled_priority_assignment exZeroManifest exZeroSpec 0 rfl (by decide)
  exact ⟨cr, hget, by rw [hpri]; rfl⟩

/-! ## Claim C7 — translate → diff round trip -/

/-- C7 (counterexample): diffing an IR against a live ruleset that is the
translation of the same IR is *not* empty in general: the fresh
translation inside `Diff` carries a new generation timestamp, so the delta
contains the two (non-blank) header lines. -/
theorem diff_roundtrip_shows_timestamp :
    Diff exAdapter exEmptyIR (some (Translate exAdapter exEmptyIR exTs1)) exTs2 =
      "- # AegisX nftables ruleset — generated 2024-01-01T00:00:00Z\n+ # AegisX nftables ruleset — generated 2024-01-01T00:00:01Z\n"
    ∧ Diff exAdapter exEmptyIR (some (Translate exAdapter exEmptyIR exTs1)) exTs2 ≠ ""
    ∧ trimSpace ("- # AegisX nftables ruleset — generated 2024-01-01T00:00:00Z") ≠ "" :=
  ⟨rfl, by decide, by decide⟩

/-- C7 (amended): the round trip is empty exactly when the two
translations coincide — diffing against a live text produced by
`Translate` *with the same generation timestamp* yields the empty delta;
otherwise only the generated-header lines differ. -/
theorem diff_of_identical_translation_empty (a : Adapter) (ir : IR) (t : String) :
    Diff a ir (some (Translate a ir t)) t = "" := by
  show simpleDiff (Translate a ir t) (Translate a ir t) = ""
  exact simpleDiff_self _

/-! ## Claim C2 — priority sort stability -/

set_option maxRecDepth 40000 in
set_option maxHeartbeats 4000000 in
/-- C2 (code evaluated at the failing input): compiling one FirewallPolicy
with 13 rules `r0 … r12` of declared priorities
`[6, 7, 8, 9, 1, 2, 3, 5, 4, 7, 10, 11, 3]` — `sort.Slice`'s pdqsort
reorders both equal-priority pairs: `r12` (input index 12) lands before
`r6` (input index 6) at priority 3, and `r9` before `r1` at priority 7,
violating the claimed input-order tie-breaking. -/
theorem compile_unstable_at_13_rules :
    exCompiled13 =
      [(1, "ns/p/r4"), (2, "ns/p/r5"), (3, "ns/p/r12"), (3, "ns/p/r6"),
       (4, "ns/p/r8"), (5, "ns/p/r7"), (6, "ns/p/r0"), (7, "ns/p/r9"),
       (7, "ns/p/r1"), (8, "ns/p/r2"), (9, "ns/p/r3"), (10, "ns/p/r10"),
       (11, "ns/p/r11")]
    ∧ (exManifest13.firewallSpec.getD ⟨"", []⟩).rules.map (fun r => (r.priority, r.name)) =
      [(6, "r0"), (7, "r1"), (8, "r2"), (9, "r3"), (1, "r4"), (2, "r5"), (3, "r6"),
       (5, "r7"), (4, "r8"), (7, "r9"), (10, "r10"), (11, "r11"), (3, "r12")] :=
  ⟨by decide, by decide⟩

end AegisX
